import Mathlib

/-!
Verification of the mux-poc upload pipeline.

Shallow embedding of the repository's core mechanisms:
  * the durable record store over IndexedDB (ScreenRecorder.tsx `UploadService`
    and the service worker's own IndexedDB helpers) is modelled as a list of
    records; IndexedDB `put` replaces the record with the same primary key,
    `delete` removes it, and the `status` index `getAll("pending")` is a filter;
  * the service worker (`upload-worker.js`): `updateStatus`, `deleteRecording`,
    `uploadBlob` and `processPendingUploads`, with the network PUT outcome as an
    explicit parameter and the observable actions (store writes, the PUT, client
    notifications) recorded in an event trace;
  * the `useServiceWorker` hook: registration state and `postMessage` gating;
  * the `ScreenRecorder` live relay driver: the `ondataavailable` backpressure
    check, the `stopRecording` shutdown sequence and `waitForBufferDrain`.
-/

/-- Status values of a stored upload record (`PendingUpload.status` in
ScreenRecorder.tsx; the same strings are used by the service worker). -/
inductive UploadStatus
  | pending
  | uploading
  | complete
  | failed
  deriving DecidableEq, Repr

/-- One durable upload record (`PendingUpload` in ScreenRecorder.tsx).
The payload blob is modelled as its byte sequence. Timestamps are epoch
milliseconds as integers. -/
structure PendingUpload where
  id : String
  uploadId : String
  uploadUrl : String
  blob : List Nat
  status : UploadStatus
  createdAt : Int
  retryCount : Nat
  deriving DecidableEq, Repr

/-- The durable record store: the contents of the `pending-uploads` object
store, in insertion order. The primary key is `id`. -/
abbrev Store := List PendingUpload

/-- IndexedDB `store.get(id)`: the record stored under primary key `id`, or
none (`getRecording` in both ScreenRecorder.tsx and the service worker). -/
def getRecording (s : Store) (id : String) : Option PendingUpload :=
  s.find? (fun r => r.id == id)

/-- IndexedDB `store.put(r)`: replaces the record stored under the same
primary key, or appends the record if the key is absent. -/
def putRecord (s : Store) (r : PendingUpload) : Store :=
  if s.any (fun x => x.id == r.id) then
    s.map (fun x => if x.id == r.id then r else x)
  else
    s ++ [r]

/-- IndexedDB `store.delete(id)` (`deleteRecording` in the service worker,
`markUploadComplete` in ScreenRecorder.tsx). -/
def deleteRecording (s : Store) (id : String) : Store :=
  s.filter (fun r => !(r.id == id))

/-- The `status` index query `getAll(IDBKeyRange.only("pending"))`
(`getPendingUploads` in both contexts; the spec calls it `getAllPending`). -/
def getPendingUploads (s : Store) : Store :=
  s.filter (fun r => r.status == UploadStatus.pending)

namespace UploadService

/-- ScreenRecorder.tsx `UploadService.updateStatus`: read-modify-write; if the
record no longer exists the function returns without writing. -/
def updateStatus (s : Store) (id : String) (status : UploadStatus)
    (incrementRetry : Bool) : Store :=
  match getRecording s id with
  | none => s
  | some recording =>
      putRecord s
        { recording with
          status := status,
          retryCount :=
            if incrementRetry then recording.retryCount + 1
            else recording.retryCount }

/-- The purge cutoff computed by `cleanupOldUploads`:
`Date.now() - 24 * 60 * 60 * 1000`. -/
def cleanupCutoff (now : Int) : Int :=
  now - 24 * 60 * 60 * 1000

/-- ScreenRecorder.tsx `UploadService.cleanupOldUploads`: deletes every record
found by a cursor over the `createdAt` index restricted to
`IDBKeyRange.upperBound(cutoff)`, which is an inclusive bound, so every record
with `createdAt` less than or equal to the cutoff is deleted. -/
def cleanupOldUploads (s : Store) (now : Int) : Store :=
  s.filter (fun r => !(decide (r.createdAt ≤ cleanupCutoff now)))

end UploadService

namespace UploadWorker

/-- Service worker `updateStatus` (upload-worker.js): read-modify-write that
only mutates `status`; a no-op when the record is gone. -/
def updateStatus (s : Store) (id : String) (status : UploadStatus) : Store :=
  match getRecording s id with
  | none => s
  | some recording => putRecord s { recording with status := status }

/-- Messages the service worker posts to its clients. -/
inductive Message
  | uploadComplete (id : String) (uploadId : String)
  | uploadFailed (id : String) (error : String)
  deriving DecidableEq, Repr

/-- Observable actions of the service worker while delivering a record. -/
inductive Event
  | statusUpdate (id : String) (status : UploadStatus)
  | putRequest (id : String) (url : String) (body : List Nat)
  | deleteRec (id : String)
  | notify (client : Nat) (msg : Message)
  deriving DecidableEq, Repr

/-- Outcome of the `fetch(uploadUrl, { method: "PUT", ... })` call: either a
response with an HTTP status, or a rejected promise (network error). -/
inductive FetchResult
  | ok (httpStatus : Nat)
  | networkError (msg : String)
  deriving DecidableEq, Repr

/-- The `response.ok` test: HTTP status in the 2xx success range. -/
def responseOk (httpStatus : Nat) : Bool :=
  decide (200 ≤ httpStatus ∧ httpStatus < 300)

/-- Whether the PUT attempt reaches the success branch of `uploadBlob`:
a resolved response with `response.ok`; a non-ok response throws and a
network error rejects, both landing in the catch branch. -/
def fetchOk : FetchResult → Bool
  | FetchResult.ok httpStatus => responseOk httpStatus
  | FetchResult.networkError _ => false

/-- The `error.message` observed by the catch branch: the thrown
message for a non-ok response, or the network error message. -/
def failMessage : FetchResult → String
  | FetchResult.ok httpStatus => "Upload failed with status " ++ toString httpStatus
  | FetchResult.networkError msg => msg

/-- Result of one `uploadBlob` call: the store afterwards, the trace of
observable actions in program order, and the boolean return value. -/
structure SWResult where
  store : Store
  events : List Event
  returned : Bool
  deriving Repr

/-- Service worker `uploadBlob(recording)` (upload-worker.js, lines 88-144):
mark the record `uploading`, issue one PUT of the whole blob; on success
delete the record and then notify every client with `UPLOAD_COMPLETE`; on
any failure mark the record `failed` and notify every client with
`UPLOAD_FAILED` carrying `error.message`. The PUT outcome and the set of
clients are explicit parameters. -/
def uploadBlob (s : Store) (clients : List Nat) (recording : PendingUpload)
    (resp : FetchResult) : SWResult :=
  let s1 := updateStatus s recording.id UploadStatus.uploading
  let pre := [Event.statusUpdate recording.id UploadStatus.uploading,
              Event.putRequest recording.id recording.uploadUrl recording.blob]
  if fetchOk resp then
    { store := deleteRecording s1 recording.id,
      events := pre ++ Event.deleteRec recording.id ::
        clients.map (fun c =>
          Event.notify c (Message.uploadComplete recording.id recording.uploadId)),
      returned := true }
  else
    { store := updateStatus s1 recording.id UploadStatus.failed,
      events := pre ++ Event.statusUpdate recording.id UploadStatus.failed ::
        clients.map (fun c =>
          Event.notify c (Message.uploadFailed recording.id (failMessage resp))),
      returned := false }

/-- The `for (const upload of pendingUploads) { await uploadBlob(upload) }`
loop: deliver a snapshot list of records strictly one after the other,
threading the store and concatenating the traces in order. -/
def processList (clients : List Nat) (resp : String → FetchResult) :
    Store → List PendingUpload → Store × List Event
  | s, [] => (s, [])
  | s, r :: rest =>
      let u := uploadBlob s clients r (resp r.id)
      let (s2, tr) := processList clients resp u.store rest
      (s2, u.events ++ tr)

/-- Service worker `processPendingUploads` (upload-worker.js, lines 149-162):
fetch the pending snapshot once, then drain it sequentially. -/
def processPendingUploads (s : Store) (clients : List Nat)
    (resp : String → FetchResult) : Store × List Event :=
  processList clients resp s (getPendingUploads s)

/-- The record id an event is about. -/
def eventId : Event → String
  | Event.statusUpdate id _ => id
  | Event.putRequest id _ _ => id
  | Event.deleteRec id => id
  | Event.notify _ (Message.uploadComplete id _) => id
  | Event.notify _ (Message.uploadFailed id _) => id

/-- Recognizes the network PUT event. -/
def isPutEvent : Event → Bool
  | Event.putRequest _ _ _ => true
  | _ => false

end UploadWorker

/-- C2 counterexample input: a pending record created exactly 24 hours before
the purge runs, so that `createdAt` equals the purge cutoff. -/
def boundaryRecord : PendingUpload :=
  { id := "r1", uploadId := "mux-up-1", uploadUrl := "https://storage.example/r1",
    blob := [0], status := UploadStatus.pending, createdAt := 0, retryCount := 0 }

/-- C2 counterexample time of the purge: 24 hours after `boundaryRecord` was
created, so the cutoff lands exactly on its `createdAt`. -/
def boundaryNow : Int := 24 * 60 * 60 * 1000

/-- C10 / C4 / C10-witness concrete record. -/
def wRecord : PendingUpload :=
  { id := "w1", uploadId := "mux-up-7", uploadUrl := "https://storage.example/w1",
    blob := [1, 2], status := UploadStatus.pending, createdAt := 5, retryCount := 3 }

/-- C7 witness store: two distinct pending records. -/
def recA : PendingUpload :=
  { id := "rec-a", uploadId := "mux-a", uploadUrl := "https://storage.example/a",
    blob := [7], status := UploadStatus.pending, createdAt := 1, retryCount := 0 }

/-- C7 witness store, second record. -/
def recB : PendingUpload :=
  { id := "rec-b", uploadId := "mux-b", uploadUrl := "https://storage.example/b",
    blob := [9], status := UploadStatus.pending, createdAt := 2, retryCount := 0 }

namespace UseServiceWorker

/-- A service worker registration as the hook observes it: up to one worker
handle (modelled as a number) in each lifecycle slot. -/
structure SWRegistration where
  active : Option Nat
  waiting : Option Nat
  installing : Option Nat
  deriving DecidableEq, Repr

/-- The hook state the registration effect produces: the `isReady` flag, the
`workerRef` and the stored registration. -/
structure HookState where
  isReady : Bool
  workerRef : Option Nat
  registration : Option SWRegistration
  deriving DecidableEq, Repr

/-- The synchronous effect of a successful `registerWorker` call
(useServiceWorker hook, lines 32-72): store the registration, take
`reg.active || reg.waiting || reg.installing` as the worker handle and set
`isReady` when one exists, then re-take `reg.active` when it is present. -/
def registerWorker (reg : SWRegistration) : HookState :=
  let worker := (reg.active.orElse (fun _ => reg.waiting)).orElse
    (fun _ => reg.installing)
  let st0 : HookState :=
    { isReady := false, workerRef := none, registration := some reg }
  let st1 :=
    match worker with
    | some w => { st0 with workerRef := some w, isReady := true }
    | none => st0
  match reg.active with
  | some a => { st1 with workerRef := some a, isReady := true }
  | none => st1

/-- The hook's `postMessage` (lines 108-127): returns false and sends nothing
when `isReady` is false; otherwise resolves a target worker from
`workerRef || registration.active || controller` and sends to it, or returns
false when none is found. The second component is the worker the message was
sent to (none when nothing was sent). -/
def postMessage (st : HookState) (controller : Option Nat) :
    Bool × Option Nat :=
  if st.isReady then
    match (st.workerRef.orElse
        (fun _ => st.registration.bind (fun r => r.active))).orElse
        (fun _ => controller) with
    | some w => (true, some w)
    | none => (false, none)
  else
    (false, none)

/-- The hook's `startUpload(id)`: forwards to `postMessage` with a
`START_UPLOAD` message. -/
def startUpload (st : HookState) (controller : Option Nat) (_id : String) :
    Bool × Option Nat :=
  postMessage st controller

/-- The hook's `processPendingUploads`: forwards to `postMessage` with a
`PROCESS_PENDING` message. -/
def processPendingUploads (st : HookState) (controller : Option Nat) :
    Bool × Option Nat :=
  postMessage st controller

end UseServiceWorker
namespace ScreenRecorder

/-- The send-buffer ceiling of the live relay driver (`WS_BUFFER_LIMIT`,
5 MiB). -/
def WS_BUFFER_LIMIT : Nat := 5 * 1024 * 1024

/-- The WebSocket ready states the driver inspects. -/
inductive WsReadyState
  | connecting
  | opened
  | closing
  | closedState
  deriving DecidableEq, Repr

/-- The `ondataavailable` handler (ScreenRecorder.tsx, lines 226-238):
returns true iff the captured frame is sent on the socket. Empty frames
return early; a non-open socket returns early; a send buffer strictly above
`WS_BUFFER_LIMIT` drops the frame; otherwise the frame is sent. -/
def ondataavailable (dataSize : Nat) (readyState : WsReadyState)
    (bufferedAmount : Nat) : Bool :=
  if dataSize == 0 then false
  else if !(readyState == WsReadyState.opened) then false
  else if decide (bufferedAmount > WS_BUFFER_LIMIT) then false
  else true

/-- Frame-by-frame send decisions for a sequence of captured frames, each
carrying its size and the buffer occupancy observed on arrival. Each decision
depends only on that frame's own observation. -/
def framesSent (frames : List (Nat × Nat)) (readyState : WsReadyState) :
    List Bool :=
  frames.map (fun f => ondataavailable f.1 readyState f.2)

/-- The shutdown steps of `stopRecording` in program order. -/
inductive StopEvent
  | recorderStopFlush
  | pause (ms : Nat)
  | drainPoll
  | wsClose (code : Nat) (reason : String)
  | tracksStopped
  | notifyStreamComplete (streamId : String)
  deriving DecidableEq, Repr

/-- The ordered effect trace of `stopRecording` (ScreenRecorder.tsx, lines
274-329): stop the recorder and await its flush (when recording), pause
200 ms, then — when the socket is open — poll the buffer drain and close with
code 1000, stop the capture tracks, and finally notify the backend that the
stream is complete (when a stream id exists). -/
def stopRecording (recorderRecording wsOpen : Bool)
    (streamId : Option String) : List StopEvent :=
  (if recorderRecording then [StopEvent.recorderStopFlush] else []) ++
  [StopEvent.pause 200] ++
  (if wsOpen then
    [StopEvent.drainPoll, StopEvent.wsClose 1000 "Stream ended"]
   else []) ++
  [StopEvent.tracksStopped] ++
  (match streamId with
   | some sid => [StopEvent.notifyStreamComplete sid]
   | none => [])

/-- The polling loop of `waitForBufferDrain` (ScreenRecorder.tsx, lines
333-350) on an always-open socket: check `bufferedAmount` every 50 ms,
resolving when it reaches zero or when more than `timeoutMs` milliseconds
have elapsed; returns the elapsed time at which the promise resolves. -/
def waitForBufferDrain (bufferedAmount : Nat → Nat) (timeoutMs elapsed : Nat) :
    Nat :=
  if bufferedAmount elapsed = 0 then elapsed
  else if h : elapsed > timeoutMs then elapsed
  else waitForBufferDrain bufferedAmount timeoutMs (elapsed + 50)
termination_by timeoutMs + 1 - elapsed
decreasing_by omega

end ScreenRecorder
namespace ChunkDriver

/-- The chunk alignment boundary of the live progressive upload protocol
(256 KiB). -/
def chunkAlignment : Nat := 262144

/-- Modelled from the spec: the ephemeral state of a live progressive chunk
upload session — the byte count still buffered below the alignment boundary,
and the byte lengths of the chunks queued for PUT so far, each with its
is-final flag. The repository delegates this driver to the external
mux-uploader component, so no implementation exists under src/; the model
follows section 4.4 of the design. -/
structure ChunkSession where
  bufferedBytes : Nat
  chunks : List (Nat × Bool)
  deriving DecidableEq, Repr

/-- Modelled from the spec: buffering one captured fragment. The driver adds
the fragment to the buffer and only initiates PUTs once the buffered size
reaches the fixed alignment boundary, emitting alignment-sized non-final
chunks and retaining the remainder in the buffer. -/
def addFragment (s : ChunkSession) (fragmentSize : Nat) : ChunkSession :=
  let buffered := s.bufferedBytes + fragmentSize
  { bufferedBytes := buffered % chunkAlignment,
    chunks := s.chunks ++
      List.replicate (buffered / chunkAlignment) (chunkAlignment, false) }

/-- Modelled from the spec: capture stop. The remaining buffered bytes —
possibly zero — are queued as the single final chunk. -/
def finalizeSession (s : ChunkSession) : ChunkSession :=
  { bufferedBytes := 0, chunks := s.chunks ++ [(s.bufferedBytes, true)] }

/-- Modelled from the spec: a whole live session over a fragment sequence —
fold the fragments into the session, then finalize. -/
def runLive (fragments : List Nat) : ChunkSession :=
  finalizeSession (fragments.foldl addFragment
    { bufferedBytes := 0, chunks := [] })

end ChunkDriver

section StoreLemmas

/-- A record found under key `id` has primary key `id`. -/
theorem getRecording_id {s : Store} {id : String} {r : PendingUpload}
    (h : getRecording s id = some r) : r.id = id := by
  have hp := List.find?_some h
  simpa using hp

theorem find?_map_replace_self (s : Store) (r : PendingUpload)
    (hany : s.any (fun x => x.id == r.id) = true) :
    (s.map (fun x => if x.id == r.id then r else x)).find?
      (fun x => x.id == r.id) = some r := by
  induction s with
  | nil => simp at hany
  | cons x xs ih =>
      rw [List.map_cons]
      by_cases hx : (x.id == r.id) = true
      · have hfx : (if (x.id == r.id) = true then r else x) = r := by
          rw [if_pos hx]
        have hrr : (r.id == r.id) = true := by simp
        rw [hfx]
        simp only [List.find?_cons, hrr]
      · simp only [List.any_cons, Bool.or_eq_true] at hany
        have hxs := hany.resolve_left hx
        have hfx : (if (x.id == r.id) = true then r else x) = x := by
          rw [if_neg hx]
        have hx' : (x.id == r.id) = false := by simpa using hx
        rw [hfx]
        simp only [List.find?_cons, hx']
        exact ih hxs

theorem find?_map_replace_other (s : Store) (r : PendingUpload)
    (id : String) (hne : r.id ≠ id) :
    (s.map (fun x => if x.id == r.id then r else x)).find?
      (fun x => x.id == id) = s.find? (fun x => x.id == id) := by
  induction s with
  | nil => simp
  | cons x xs ih =>
      rw [List.map_cons]
      by_cases hx : (x.id == r.id) = true
      · have hxid : x.id = r.id := by simpa using hx
        have hrne : (r.id == id) = false := by simpa using hne
        have hxne : (x.id == id) = false := by
          rw [hxid]
          exact hrne
        have hfx : (if (x.id == r.id) = true then r else x) = r := by
          rw [if_pos hx]
        rw [hfx]
        simp only [List.find?_cons, hrne, hxne]
        exact ih
      · have hfx : (if (x.id == r.id) = true then r else x) = x := by
          rw [if_neg hx]
        rw [hfx]
        by_cases hxi : (x.id == id) = true
        · simp only [List.find?_cons, hxi]
        · have hxi' : (x.id == id) = false := by simpa using hxi
          simp only [List.find?_cons, hxi']
          exact ih

/-- Reading back the key just written by `put`. -/
theorem getRecording_putRecord_self (s : Store) (r : PendingUpload) :
    getRecording (putRecord s r) r.id = some r := by
  unfold putRecord getRecording
  split
  case isTrue hany => exact find?_map_replace_self s r hany
  case isFalse hany =>
    have hnone : (s.find? (fun x => x.id == r.id)) = none := by
      rw [List.find?_eq_none]
      intro x hx hpx
      exact hany (List.any_eq_true.mpr ⟨x, hx, hpx⟩)
    simp [List.find?_append, hnone]

/-- Writing under one key does not disturb reads of other keys. -/
theorem getRecording_putRecord_other (s : Store) (r : PendingUpload)
    (id : String) (hne : r.id ≠ id) :
    getRecording (putRecord s r) id = getRecording s id := by
  unfold putRecord getRecording
  split
  case isTrue hany => exact find?_map_replace_other s r id hne
  case isFalse hany =>
    have hrne : (r.id == id) = false := by simpa using hne
    simp [List.find?_append, hrne, Option.or_none]

end StoreLemmas

/-- Deleting a key makes it unreadable. -/
theorem getRecording_deleteRecording_self (s : Store) (id : String) :
    getRecording (deleteRecording s id) id = none := by
  unfold getRecording deleteRecording
  rw [List.find?_eq_none]
  intro x hx
  simp only [List.mem_filter, Bool.not_eq_true'] at hx
  simp [hx.2]

/-- Effect of the page-side read-modify-write on the written key. -/
theorem updateStatus_service_some {s : Store} {id : String}
    (status : UploadStatus) (incrementRetry : Bool) {r0 : PendingUpload}
    (h : getRecording s id = some r0) :
    getRecording (UploadService.updateStatus s id status incrementRetry) id =
      some { r0 with
             status := status,
             retryCount :=
               if incrementRetry then r0.retryCount + 1 else r0.retryCount } := by
  have hid := getRecording_id h
  unfold UploadService.updateStatus
  rw [h]
  have h2 := getRecording_putRecord_self s
    { r0 with
      status := status,
      retryCount := if incrementRetry then r0.retryCount + 1 else r0.retryCount }
  simpa [hid] using h2

/-- Effect of the worker-side read-modify-write on the written key. -/
theorem updateStatus_worker_some {s : Store} {id : String}
    (status : UploadStatus) {r0 : PendingUpload}
    (h : getRecording s id = some r0) :
    getRecording (UploadWorker.updateStatus s id status) id =
      some { r0 with status := status } := by
  have hid := getRecording_id h
  unfold UploadWorker.updateStatus
  rw [h]
  have h2 := getRecording_putRecord_self s { r0 with status := status }
  simpa [hid] using h2

/-- C2 counterexample: the claim says a record whose `createdAt` equals the
cutoff is retained, but `cleanupOldUploads` uses the inclusive bound
`IDBKeyRange.upperBound(cutoff)` and deletes it. -/
theorem c2_boundary_record_purged :
    boundaryRecord.createdAt = UploadService.cleanupCutoff boundaryNow ∧
    boundaryRecord ∈ ([boundaryRecord] : Store) ∧
    boundaryRecord ∉ UploadService.cleanupOldUploads [boundaryRecord] boundaryNow := by
  refine ⟨by decide, by decide, by decide⟩

/-- C2 (amended): the age-based purge removes exactly the records whose
`createdAt` is less than or equal to the cutoff (now minus 24 h); a record is
retained if and only if its `createdAt` is strictly newer than the cutoff, so
the boundary is inclusive on the delete side. -/
theorem c2_purge_keeps_strictly_newer (s : Store) (now : Int) (r : PendingUpload) :
    r ∈ UploadService.cleanupOldUploads s now ↔
      r ∈ s ∧ UploadService.cleanupCutoff now < r.createdAt := by
  simp [UploadService.cleanupOldUploads, List.mem_filter, Int.not_le]

/-- C5: `updateStatus` is a no-op when no record with the id exists — the
store is returned unchanged (in both the page-side service and the service
worker, neither of which writes in that case); when the record exists it is
written back with `status` replaced and `retryCount` incremented exactly when
the caller asks for it. -/
theorem c5_updateStatus_noop_when_absent
    (s : Store) (id : String) (status : UploadStatus) (incrementRetry : Bool) :
    (getRecording s id = none →
        UploadService.updateStatus s id status incrementRetry = s ∧
        UploadWorker.updateStatus s id status = s)
    ∧ (∀ r0, getRecording s id = some r0 →
        getRecording (UploadService.updateStatus s id status incrementRetry) id =
          some { r0 with
                 status := status,
                 retryCount :=
                   if incrementRetry then r0.retryCount + 1
                   else r0.retryCount }) := by
  constructor
  · intro h
    constructor
    · unfold UploadService.updateStatus
      rw [h]
    · unfold UploadWorker.updateStatus
      rw [h]
  · intro r0 h
    exact updateStatus_service_some status incrementRetry h

theorem c5_witness :
    UploadService.updateStatus [] "absent" UploadStatus.failed true = [] ∧
    UploadWorker.updateStatus [] "absent" UploadStatus.failed = [] :=
  (c5_updateStatus_noop_when_absent [] "absent" UploadStatus.failed true).1 rfl

/-- C10: the worker's `updateStatus` writes back the fetched record with only
`status` changed — id, uploadId, uploadUrl, blob, createdAt and retryCount are
all preserved — and consequently no `uploadBlob` delivery attempt ever changes
the `retryCount` of the record it operates on. -/
theorem c10_updateStatus_only_status
    (s : Store) (id : String) (status : UploadStatus) (r0 : PendingUpload)
    (h : getRecording s id = some r0) :
    getRecording (UploadWorker.updateStatus s id status) id =
      some { id := r0.id, uploadId := r0.uploadId, uploadUrl := r0.uploadUrl,
             blob := r0.blob, status := status, createdAt := r0.createdAt,
             retryCount := r0.retryCount }
    ∧ ∀ (clients : List Nat) (resp : UploadWorker.FetchResult)
        (r1 : PendingUpload),
        getRecording (UploadWorker.uploadBlob s clients r0 resp).store id =
          some r1 →
        r1.retryCount = r0.retryCount := by
  have hid := getRecording_id h
  constructor
  · exact updateStatus_worker_some status h
  · intro clients resp r1 h1
    unfold UploadWorker.uploadBlob at h1
    by_cases hok : UploadWorker.fetchOk resp = true
    · rw [if_pos hok] at h1
      simp only at h1
      rw [hid] at h1
      rw [getRecording_deleteRecording_self] at h1
      exact absurd h1 (by simp)
    · rw [if_neg hok] at h1
      simp only at h1
      rw [hid] at h1
      have hs1 := updateStatus_worker_some UploadStatus.uploading h
      have hs2 := updateStatus_worker_some (s := UploadWorker.updateStatus s id UploadStatus.uploading)
        UploadStatus.failed hs1
      rw [hs2] at h1
      cases h1
      rfl

theorem c10_witness :
    getRecording (UploadWorker.updateStatus [wRecord] "w1" UploadStatus.uploading) "w1" =
      some { id := "w1", uploadId := "mux-up-7",
             uploadUrl := "https://storage.example/w1", blob := [1, 2],
             status := UploadStatus.uploading, createdAt := 5, retryCount := 3 } :=
  (c10_updateStatus_only_status [wRecord] "w1" UploadStatus.uploading wRecord
    (by decide)).1

/-- Exactly one notification per client in a notification fan-out, for a
client list without duplicates. -/
theorem count_notify_fanout (clients : List Nat) (hnd : clients.Nodup)
    (c : Nat) (hc : c ∈ clients) (m : UploadWorker.Message) :
    (clients.map (fun c2 => UploadWorker.Event.notify c2 m)).count
      (UploadWorker.Event.notify c m) = 1 := by
  have hinj : Function.Injective
      (fun c2 : Nat => UploadWorker.Event.notify c2 m) := by
    intro a b hab
    simpa using hab
  rw [List.count_map_of_injective clients _ hinj c]
  exact List.count_eq_one_of_mem hnd hc

/-- C1: when the PUT response is in the HTTP success range, `uploadBlob`
deletes the record before posting any notification — afterwards no record
with that id is pending, every `deleteRec` event precedes every `notify`
event in the trace, and each subscribed client receives the
`UPLOAD_COMPLETE` notification for the record exactly once. -/
theorem c1_success_deletes_then_notifies_once
    (s : Store) (clients : List Nat) (recording : PendingUpload)
    (httpStatus : Nat)
    (hok : UploadWorker.responseOk httpStatus = true) (hnd : clients.Nodup) :
    (∀ r ∈ getPendingUploads
        (UploadWorker.uploadBlob s clients recording
          (UploadWorker.FetchResult.ok httpStatus)).store, r.id ≠ recording.id)
    ∧ (∀ (i j c : Nat) (m : UploadWorker.Message),
        (UploadWorker.uploadBlob s clients recording
          (UploadWorker.FetchResult.ok httpStatus)).events[i]? =
            some (UploadWorker.Event.deleteRec recording.id) →
        (UploadWorker.uploadBlob s clients recording
          (UploadWorker.FetchResult.ok httpStatus)).events[j]? =
            some (UploadWorker.Event.notify c m) →
        i < j)
    ∧ (∀ c ∈ clients,
        (UploadWorker.uploadBlob s clients recording
          (UploadWorker.FetchResult.ok httpStatus)).events.count
          (UploadWorker.Event.notify c
            (UploadWorker.Message.uploadComplete recording.id
              recording.uploadId)) = 1) := by
  have hfok : UploadWorker.fetchOk (UploadWorker.FetchResult.ok httpStatus) = true := hok
  have hev : (UploadWorker.uploadBlob s clients recording
      (UploadWorker.FetchResult.ok httpStatus)).events =
      UploadWorker.Event.statusUpdate recording.id UploadStatus.uploading ::
      UploadWorker.Event.putRequest recording.id recording.uploadUrl recording.blob ::
      UploadWorker.Event.deleteRec recording.id ::
      clients.map (fun c =>
        UploadWorker.Event.notify c
          (UploadWorker.Message.uploadComplete recording.id recording.uploadId)) := by
    simp [UploadWorker.uploadBlob, hfok]
  have hst : (UploadWorker.uploadBlob s clients recording
      (UploadWorker.FetchResult.ok httpStatus)).store =
      deleteRecording
        (UploadWorker.updateStatus s recording.id UploadStatus.uploading)
        recording.id := by
    simp [UploadWorker.uploadBlob, hfok]
  refine ⟨?_, ?_, ?_⟩
  · intro r hr
    rw [hst] at hr
    simp only [getPendingUploads, deleteRecording, List.mem_filter,
      Bool.not_eq_true'] at hr
    intro hid
    have := hr.1.2
    rw [hid] at this
    simp at this
  · intro i j c m hi hj
    rw [hev] at hi hj
    have hj3 : 3 ≤ j := by
      by_contra hlt
      push_neg at hlt
      interval_cases j <;> simp at hj
    have hi2 : i ≤ 2 := by
      by_contra hgt
      push_neg at hgt
      obtain _ | _ | _ | i := i
      · omega
      · omega
      · omega
      · simp only [List.getElem?_cons_succ] at hi
        have hmem := List.getElem?_mem hi
        simp at hmem
    omega
  · intro c hc
    rw [hev]
    have h1 : (UploadWorker.Event.statusUpdate recording.id UploadStatus.uploading ==
        UploadWorker.Event.notify c
          (UploadWorker.Message.uploadComplete recording.id recording.uploadId)) = false := by
      simp
    have h2 : (UploadWorker.Event.putRequest recording.id recording.uploadUrl recording.blob ==
        UploadWorker.Event.notify c
          (UploadWorker.Message.uploadComplete recording.id recording.uploadId)) = false := by
      simp
    have h3 : (UploadWorker.Event.deleteRec recording.id ==
        UploadWorker.Event.notify c
          (UploadWorker.Message.uploadComplete recording.id recording.uploadId)) = false := by
      simp
    rw [List.count_cons, List.count_cons, List.count_cons, h1, h2, h3]
    norm_num
    exact count_notify_fanout clients hnd c hc _

theorem c1_witness :
    (∀ r ∈ getPendingUploads
        (UploadWorker.uploadBlob [wRecord] [0, 1] wRecord
          (UploadWorker.FetchResult.ok 200)).store, r.id ≠ wRecord.id)
    ∧ (∀ (i j c : Nat) (m : UploadWorker.Message),
        (UploadWorker.uploadBlob [wRecord] [0, 1] wRecord
          (UploadWorker.FetchResult.ok 200)).events[i]? =
            some (UploadWorker.Event.deleteRec wRecord.id) →
        (UploadWorker.uploadBlob [wRecord] [0, 1] wRecord
          (UploadWorker.FetchResult.ok 200)).events[j]? =
            some (UploadWorker.Event.notify c m) →
        i < j)
    ∧ (∀ c ∈ [0, 1],
        (UploadWorker.uploadBlob [wRecord] [0, 1] wRecord
          (UploadWorker.FetchResult.ok 200)).events.count
          (UploadWorker.Event.notify c
            (UploadWorker.Message.uploadComplete wRecord.id
              wRecord.uploadId)) = 1) :=
  c1_success_deletes_then_notifies_once [wRecord] [0, 1] wRecord 200
    (by decide) (by decide)

/-- C4: when the PUT attempt fails (non-success response or network error),
`uploadBlob` rewrites the record with status `failed` (retryCount untouched),
posts `UPLOAD_FAILED` with the record id and the error description exactly
once to every client, and issues exactly one PUT in the whole attempt (no
in-place retry). -/
theorem c4_failure_marks_failed_and_notifies
    (s : Store) (clients : List Nat) (recording : PendingUpload)
    (resp : UploadWorker.FetchResult) (r0 : PendingUpload)
    (hfail : UploadWorker.fetchOk resp = false)
    (hrec : getRecording s recording.id = some r0)
    (hnd : clients.Nodup) :
    getRecording (UploadWorker.uploadBlob s clients recording resp).store
        recording.id = some { r0 with status := UploadStatus.failed }
    ∧ (∀ c ∈ clients,
        (UploadWorker.uploadBlob s clients recording resp).events.count
          (UploadWorker.Event.notify c
            (UploadWorker.Message.uploadFailed recording.id
              (UploadWorker.failMessage resp))) = 1)
    ∧ (UploadWorker.uploadBlob s clients recording resp).events.countP
        UploadWorker.isPutEvent = 1 := by
  have hev : (UploadWorker.uploadBlob s clients recording resp).events =
      UploadWorker.Event.statusUpdate recording.id UploadStatus.uploading ::
      UploadWorker.Event.putRequest recording.id recording.uploadUrl recording.blob ::
      UploadWorker.Event.statusUpdate recording.id UploadStatus.failed ::
      clients.map (fun c =>
        UploadWorker.Event.notify c
          (UploadWorker.Message.uploadFailed recording.id
            (UploadWorker.failMessage resp))) := by
    simp [UploadWorker.uploadBlob, hfail]
  have hst : (UploadWorker.uploadBlob s clients recording resp).store =
      UploadWorker.updateStatus
        (UploadWorker.updateStatus s recording.id UploadStatus.uploading)
        recording.id UploadStatus.failed := by
    simp [UploadWorker.uploadBlob, hfail]
  refine ⟨?_, ?_, ?_⟩
  · rw [hst]
    have hs1 := updateStatus_worker_some UploadStatus.uploading hrec
    have hs2 := updateStatus_worker_some UploadStatus.failed hs1
    exact hs2
  · intro c hc
    rw [hev]
    have h1 : (UploadWorker.Event.statusUpdate recording.id UploadStatus.uploading ==
        UploadWorker.Event.notify c
          (UploadWorker.Message.uploadFailed recording.id
            (UploadWorker.failMessage resp))) = false := by
      simp
    have h2 : (UploadWorker.Event.putRequest recording.id recording.uploadUrl recording.blob ==
        UploadWorker.Event.notify c
          (UploadWorker.Message.uploadFailed recording.id
            (UploadWorker.failMessage resp))) = false := by
      simp
    have h3 : (UploadWorker.Event.statusUpdate recording.id UploadStatus.failed ==
        UploadWorker.Event.notify c
          (UploadWorker.Message.uploadFailed recording.id
            (UploadWorker.failMessage resp))) = false := by
      simp
    rw [List.count_cons, List.count_cons, List.count_cons, h1, h2, h3]
    norm_num
    exact count_notify_fanout clients hnd c hc _
  · rw [hev]
    simp [List.countP_cons, UploadWorker.isPutEvent, Function.comp]

theorem c4_witness :
    getRecording
      (UploadWorker.uploadBlob [wRecord] [0, 1] wRecord
        (UploadWorker.FetchResult.ok 500)).store wRecord.id =
      some { wRecord with status := UploadStatus.failed } :=
  (c4_failure_marks_failed_and_notifies [wRecord] [0, 1] wRecord
    (UploadWorker.FetchResult.ok 500) wRecord (by decide) (by decide)
    (by decide)).1

/-- Trace shape of a successful delivery. -/
theorem uploadBlob_events_of_ok {resp : UploadWorker.FetchResult}
    (s : Store) (clients : List Nat) (recording : PendingUpload)
    (hok : UploadWorker.fetchOk resp = true) :
    (UploadWorker.uploadBlob s clients recording resp).events =
      UploadWorker.Event.statusUpdate recording.id UploadStatus.uploading ::
      UploadWorker.Event.putRequest recording.id recording.uploadUrl recording.blob ::
      UploadWorker.Event.deleteRec recording.id ::
      clients.map (fun c =>
        UploadWorker.Event.notify c
          (UploadWorker.Message.uploadComplete recording.id recording.uploadId)) := by
  simp [UploadWorker.uploadBlob, hok]

/-- Trace shape of a failed delivery. -/
theorem uploadBlob_events_of_fail {resp : UploadWorker.FetchResult}
    (s : Store) (clients : List Nat) (recording : PendingUpload)
    (hfail : UploadWorker.fetchOk resp = false) :
    (UploadWorker.uploadBlob s clients recording resp).events =
      UploadWorker.Event.statusUpdate recording.id UploadStatus.uploading ::
      UploadWorker.Event.putRequest recording.id recording.uploadUrl recording.blob ::
      UploadWorker.Event.statusUpdate recording.id UploadStatus.failed ::
      clients.map (fun c =>
        UploadWorker.Event.notify c
          (UploadWorker.Message.uploadFailed recording.id
            (UploadWorker.failMessage resp))) := by
  simp [UploadWorker.uploadBlob, hfail]

/-- Every event an `uploadBlob` call emits is about the record it delivers. -/
theorem uploadBlob_event_id (s : Store) (clients : List Nat)
    (recording : PendingUpload) (resp : UploadWorker.FetchResult) :
    ∀ e ∈ (UploadWorker.uploadBlob s clients recording resp).events,
      UploadWorker.eventId e = recording.id := by
  intro e he
  by_cases hok : UploadWorker.fetchOk resp = true
  · rw [uploadBlob_events_of_ok s clients recording hok] at he
    simp only [List.mem_cons, List.mem_map] at he
    obtain h | h | h | ⟨c2, _, h⟩ := he
    · rw [h]; rfl
    · rw [h]; rfl
    · rw [h]; rfl
    · rw [← h]; rfl
  · rw [uploadBlob_events_of_fail s clients recording
      (by simpa using hok)] at he
    simp only [List.mem_cons, List.mem_map] at he
    obtain h | h | h | ⟨c2, _, h⟩ := he
    · rw [h]; rfl
    · rw [h]; rfl
    · rw [h]; rfl
    · rw [← h]; rfl

/-- Unfolding one step of the sequential drain. -/
theorem processList_cons (clients : List Nat)
    (resp : String → UploadWorker.FetchResult) (s : Store)
    (r : PendingUpload) (rest : List PendingUpload) :
    (UploadWorker.processList clients resp s (r :: rest)).2 =
      (UploadWorker.uploadBlob s clients r (resp r.id)).events ++
      (UploadWorker.processList clients resp
        (UploadWorker.uploadBlob s clients r (resp r.id)).store rest).2 := by
  simp [UploadWorker.processList]

/-- Every event in a drain's trace is about one of the drained records. -/
theorem processList_event_id (clients : List Nat)
    (resp : String → UploadWorker.FetchResult) :
    ∀ (recs : List PendingUpload) (s : Store) (e : UploadWorker.Event),
      e ∈ (UploadWorker.processList clients resp s recs).2 →
      ∃ r, r ∈ recs ∧ UploadWorker.eventId e = r.id := by
  intro recs
  induction recs with
  | nil =>
      intro s e he
      simp [UploadWorker.processList] at he
  | cons r rest ih =>
      intro s e he
      rw [processList_cons] at he
      rcases List.mem_append.mp he with h | h
      · exact ⟨r, List.mem_cons_self r rest, uploadBlob_event_id _ _ _ _ e h⟩
      · obtain ⟨r2, hr2, hid⟩ := ih _ e h
        exact ⟨r2, List.mem_cons_of_mem r hr2, hid⟩

/-- Core sequencing argument for C7: with pairwise-distinct record ids, every
event about the k-th drained record occurs in the trace strictly before every
event about a later record. -/
theorem processList_sequential (clients : List Nat)
    (resp : String → UploadWorker.FetchResult) :
    ∀ (recs : List PendingUpload) (s : Store) (k l : Nat)
      (hk : k < recs.length) (hl : l < recs.length), k < l →
      (recs.map (fun r => r.id)).Nodup →
      ∀ (i j : Nat) (ei ej : UploadWorker.Event),
        (UploadWorker.processList clients resp s recs).2[i]? = some ei →
        (UploadWorker.processList clients resp s recs).2[j]? = some ej →
        UploadWorker.eventId ei = (recs.get ⟨k, hk⟩).id →
        UploadWorker.eventId ej = (recs.get ⟨l, hl⟩).id →
        i < j := by
  intro recs
  induction recs with
  | nil =>
      intro s k l hk
      exact absurd hk (by simp)
  | cons r rest ih =>
      intro s k l hk hl hkl hnd i j ei ej hi hj hei hej
      rw [List.map_cons, List.nodup_cons] at hnd
      obtain ⟨hnd1, hnd2⟩ := hnd
      rw [processList_cons] at hi hj
      have hBid := uploadBlob_event_id s clients r (resp r.id)
      cases k with
      | zero =>
          cases l with
          | zero => omega
          | succ l2 =>
              have hl2 : l2 < rest.length := by
                simpa using Nat.lt_of_succ_lt_succ hl
              have hejne : UploadWorker.eventId ej ≠ r.id := by
                have hget : ((r :: rest).get ⟨l2 + 1, hl⟩) =
                    rest.get ⟨l2, hl2⟩ := rfl
                rw [hej, hget]
                intro hcontra
                apply hnd1
                rw [← hcontra]
                exact List.mem_map.mpr ⟨rest.get ⟨l2, hl2⟩, rest.get_mem _ _, rfl⟩
              have hjB : (UploadWorker.uploadBlob s clients r (resp r.id)).events.length ≤ j := by
                by_contra hjl
                push_neg at hjl
                rw [List.getElem?_append_left hjl] at hj
                exact hejne (hBid ej (List.getElem?_mem hj))
              have hiB : i < (UploadWorker.uploadBlob s clients r (resp r.id)).events.length := by
                by_contra hil
                push_neg at hil
                rw [List.getElem?_append_right hil] at hi
                obtain ⟨r2, hr2, hid2⟩ :=
                  processList_event_id clients resp rest _ ei
                    (List.getElem?_mem hi)
                apply hnd1
                have hget0 : ((r :: rest).get ⟨0, hk⟩) = r := rfl
                have hrid : r.id = r2.id := by
                  rw [← hid2, hei, hget0]
                rw [hrid]
                exact List.mem_map.mpr ⟨r2, hr2, rfl⟩
              omega
      | succ k2 =>
          cases l with
          | zero => omega
          | succ l2 =>
              have hk2 : k2 < rest.length := by
                simpa using Nat.lt_of_succ_lt_succ hk
              have hl2 : l2 < rest.length := by
                simpa using Nat.lt_of_succ_lt_succ hl
              have heine : UploadWorker.eventId ei ≠ r.id := by
                have hget : ((r :: rest).get ⟨k2 + 1, hk⟩) =
                    rest.get ⟨k2, hk2⟩ := rfl
                rw [hei, hget]
                intro hcontra
                apply hnd1
                rw [← hcontra]
                exact List.mem_map.mpr ⟨rest.get ⟨k2, hk2⟩, rest.get_mem _ _, rfl⟩
              have hejne : UploadWorker.eventId ej ≠ r.id := by
                have hget : ((r :: rest).get ⟨l2 + 1, hl⟩) =
                    rest.get ⟨l2, hl2⟩ := rfl
                rw [hej, hget]
                intro hcontra
                apply hnd1
                rw [← hcontra]
                exact List.mem_map.mpr ⟨rest.get ⟨l2, hl2⟩, rest.get_mem _ _, rfl⟩
              have hiB : (UploadWorker.uploadBlob s clients r (resp r.id)).events.length ≤ i := by
                by_contra hil
                push_neg at hil
                rw [List.getElem?_append_left hil] at hi
                exact heine (hBid ei (List.getElem?_mem hi))
              have hjB : (UploadWorker.uploadBlob s clients r (resp r.id)).events.length ≤ j := by
                by_contra hjl
                push_neg at hjl
                rw [List.getElem?_append_left hjl] at hj
                exact hejne (hBid ej (List.getElem?_mem hj))
              rw [List.getElem?_append_right hiB] at hi
              rw [List.getElem?_append_right hjB] at hj
              have hrec := ih _ k2 l2 hk2 hl2 (by omega) hnd2 _ _ ei ej hi hj hei hej
              omega

/-- Each `uploadBlob` call issues exactly one PUT, for its own record. -/
theorem uploadBlob_put_events (s : Store) (clients : List Nat)
    (recording : PendingUpload) (resp : UploadWorker.FetchResult) :
    (UploadWorker.uploadBlob s clients recording resp).events.filter
        UploadWorker.isPutEvent =
      [UploadWorker.Event.putRequest recording.id recording.uploadUrl
        recording.blob] := by
  by_cases hok : UploadWorker.fetchOk resp = true
  · rw [uploadBlob_events_of_ok s clients recording hok]
    simp [UploadWorker.isPutEvent, List.filter_map, Function.comp]
  · rw [uploadBlob_events_of_fail s clients recording (by simpa using hok)]
    simp [UploadWorker.isPutEvent, List.filter_map, Function.comp]

/-- The drain issues the PUTs of the drained records in list order. -/
theorem processList_put_events (clients : List Nat)
    (resp : String → UploadWorker.FetchResult) :
    ∀ (recs : List PendingUpload) (s : Store),
      (UploadWorker.processList clients resp s recs).2.filter
          UploadWorker.isPutEvent =
        recs.map (fun r =>
          UploadWorker.Event.putRequest r.id r.uploadUrl r.blob) := by
  intro recs
  induction recs with
  | nil =>
      intro s
      simp [UploadWorker.processList]
  | cons r rest ih =>
      intro s
      rw [processList_cons, List.filter_append, uploadBlob_put_events, ih]
      simp

/-- C7: one invocation of `PROCESS_PENDING` drains the pending snapshot
strictly sequentially in store order — the PUTs issued are exactly one per
pending record, in snapshot order, and (for pairwise-distinct record ids)
every event of the k-th record's delivery occurs strictly before every event
of any later record's delivery, so attempt k+1 begins only after attempt k
has terminated and no two deliveries overlap. -/
theorem c7_sequential_store_order
    (s : Store) (clients : List Nat)
    (resp : String → UploadWorker.FetchResult)
    (hnd : ((getPendingUploads s).map (fun r => r.id)).Nodup) :
    ((UploadWorker.processPendingUploads s clients resp).2.filter
        UploadWorker.isPutEvent =
      (getPendingUploads s).map (fun r =>
        UploadWorker.Event.putRequest r.id r.uploadUrl r.blob))
    ∧ (∀ (k l : Nat) (hk : k < (getPendingUploads s).length)
        (hl : l < (getPendingUploads s).length), k < l →
        ∀ (i j : Nat) (ei ej : UploadWorker.Event),
          (UploadWorker.processPendingUploads s clients resp).2[i]? = some ei →
          (UploadWorker.processPendingUploads s clients resp).2[j]? = some ej →
          UploadWorker.eventId ei = ((getPendingUploads s).get ⟨k, hk⟩).id →
          UploadWorker.eventId ej = ((getPendingUploads s).get ⟨l, hl⟩).id →
          i < j) := by
  constructor
  · exact processList_put_events clients resp (getPendingUploads s) s
  · intro k l hk hl hkl i j ei ej hi hj hei hej
    exact processList_sequential clients resp (getPendingUploads s) s k l hk hl
      hkl hnd i j ei ej hi hj hei hej

theorem c7_witness :
    (UploadWorker.processPendingUploads [recA, recB] []
        (fun _ => UploadWorker.FetchResult.ok 204)).2.filter
        UploadWorker.isPutEvent =
      (getPendingUploads [recA, recB]).map (fun r =>
        UploadWorker.Event.putRequest r.id r.uploadUrl r.blob) :=
  (c7_sequential_store_order [recA, recB] []
    (fun _ => UploadWorker.FetchResult.ok 204) (by decide)).1

/-- C6 counterexample: a registration whose only worker handle is still
installing — no active agent exists — already flips `isReady` to true, and
`postMessage` then sends to the installing worker and returns true, contrary
to the claim that `isReady` is exposed only once an active handle exists and
that `postMessage` sends nothing while no agent is active. -/
theorem c6_ready_with_installing_worker :
    (UseServiceWorker.registerWorker
      { active := none, waiting := none, installing := some 7 }).isReady = true
    ∧ ({ active := none, waiting := none, installing := some 7 } :
        UseServiceWorker.SWRegistration).active = none
    ∧ UseServiceWorker.postMessage
        (UseServiceWorker.registerWorker
          { active := none, waiting := none, installing := some 7 }) none =
        (true, some 7) := by
  refine ⟨rfl, rfl, rfl⟩

/-- C6 (amended): `registerWorker` sets `isReady` exactly when the
registration carries any worker handle — active, waiting or installing, not
only an active one; and whenever `isReady` is false, `postMessage` (and hence
`startUpload` and `processPendingUploads`) sends nothing and returns false. -/
theorem c6_ready_iff_any_handle
    (reg : UseServiceWorker.SWRegistration)
    (st : UseServiceWorker.HookState) (controller : Option Nat)
    (id : String) :
    ((UseServiceWorker.registerWorker reg).isReady = true ↔
      reg.active.isSome = true ∨ reg.waiting.isSome = true ∨
        reg.installing.isSome = true)
    ∧ (st.isReady = false →
        UseServiceWorker.postMessage st controller = (false, none) ∧
        UseServiceWorker.startUpload st controller id = (false, none) ∧
        UseServiceWorker.processPendingUploads st controller =
          (false, none)) := by
  constructor
  · obtain ⟨a, w, inst⟩ := reg
    cases a <;> cases w <;> cases inst <;>
      simp [UseServiceWorker.registerWorker, Option.orElse]
  · intro h
    refine ⟨?_, ?_, ?_⟩ <;>
      simp [UseServiceWorker.postMessage, UseServiceWorker.startUpload,
        UseServiceWorker.processPendingUploads, h]

theorem c6_witness :
    UseServiceWorker.postMessage
        { isReady := false, workerRef := none, registration := none }
        (some 4) = (false, none) ∧
    UseServiceWorker.startUpload
        { isReady := false, workerRef := none, registration := none }
        (some 4) "rec-a" = (false, none) ∧
    UseServiceWorker.processPendingUploads
        { isReady := false, workerRef := none, registration := none }
        (some 4) = (false, none) :=
  (c6_ready_iff_any_handle { active := none, waiting := none, installing := none }
    { isReady := false, workerRef := none, registration := none }
    (some 4) "rec-a").2 rfl

/-- C8 counterexample: an empty captured frame arriving on an open socket
with an empty send buffer (occupancy 0, at or below the 5 MiB ceiling) is
nevertheless not sent — `ondataavailable` returns early on
`event.data.size === 0` — contrary to the claim that every frame is sent
whenever occupancy is at or below the ceiling and the connection is open. -/
theorem c8_empty_frame_not_sent :
    ScreenRecorder.ondataavailable 0 ScreenRecorder.WsReadyState.opened 0 =
      false
    ∧ (0 : Nat) ≤ ScreenRecorder.WS_BUFFER_LIMIT := by
  refine ⟨rfl, by decide⟩

/-- C8 (amended): a frame arriving while buffer occupancy strictly exceeds
the 5 MiB ceiling is dropped — not queued, not retried; a non-empty frame
arriving on an open connection with occupancy at or below the ceiling is
sent; and each frame's decision depends only on its own observation, so a
dropped frame leaves subsequent frames unaffected. -/
theorem c8_backpressure_drop
    (dataSize bufferedAmount : Nat)
    (readyState : ScreenRecorder.WsReadyState)
    (frames : List (Nat × Nat)) :
    (bufferedAmount > ScreenRecorder.WS_BUFFER_LIMIT →
      ScreenRecorder.ondataavailable dataSize readyState bufferedAmount =
        false)
    ∧ (dataSize ≠ 0 → readyState = ScreenRecorder.WsReadyState.opened →
        bufferedAmount ≤ ScreenRecorder.WS_BUFFER_LIMIT →
        ScreenRecorder.ondataavailable dataSize readyState bufferedAmount =
          true)
    ∧ ScreenRecorder.framesSent ((dataSize, bufferedAmount) :: frames)
        readyState =
        ScreenRecorder.ondataavailable dataSize readyState bufferedAmount ::
          ScreenRecorder.framesSent frames readyState := by
  refine ⟨?_, ?_, rfl⟩
  · intro h
    unfold ScreenRecorder.ondataavailable
    by_cases h0 : (dataSize == 0) = true
    · rw [if_pos h0]
    · rw [if_neg h0]
      by_cases hrs : (!(readyState == ScreenRecorder.WsReadyState.opened)) = true
      · rw [if_pos hrs]
      · rw [if_neg hrs, if_pos (by simpa using h)]
  · intro h0 hrs hle
    subst hrs
    have hnb : ¬(bufferedAmount > ScreenRecorder.WS_BUFFER_LIMIT) :=
      Nat.not_lt.mpr hle
    simp [ScreenRecorder.ondataavailable, h0, hnb]

theorem c8_witness :
    ScreenRecorder.ondataavailable 1 ScreenRecorder.WsReadyState.opened 0 =
      true :=
  (c8_backpressure_drop 1 0 ScreenRecorder.WsReadyState.opened []).2.1
    (by decide) rfl (by decide)

/-- The drain poll resolves either because the buffer hit zero or because the
timeout elapsed. -/
theorem waitForBufferDrain_resolves (bufferedAmount : Nat → Nat)
    (timeoutMs : Nat) :
    ∀ elapsed,
      bufferedAmount
          (ScreenRecorder.waitForBufferDrain bufferedAmount timeoutMs elapsed)
        = 0 ∨
      ScreenRecorder.waitForBufferDrain bufferedAmount timeoutMs elapsed >
        timeoutMs := by
  have H : ∀ (n elapsed : Nat), timeoutMs + 1 - elapsed ≤ n →
      bufferedAmount
          (ScreenRecorder.waitForBufferDrain bufferedAmount timeoutMs elapsed)
        = 0 ∨
      ScreenRecorder.waitForBufferDrain bufferedAmount timeoutMs elapsed >
        timeoutMs := by
    intro n
    induction n with
    | zero =>
        intro e he
        unfold ScreenRecorder.waitForBufferDrain
        split_ifs with h1 h2
        · exact Or.inl h1
        · exact Or.inr h2
        · omega
    | succ n ihn =>
        intro e he
        unfold ScreenRecorder.waitForBufferDrain
        split_ifs with h1 h2
        · exact Or.inl h1
        · exact Or.inr h2
        · exact ihn (e + 50) (by omega)
  exact fun elapsed => H (timeoutMs + 1 - elapsed) elapsed (Nat.le_refl _)

/-- C9: stopping a live session (recorder running, socket open, stream id
present) performs exactly, and in this order: stop the capturer and await its
flush; pause 200 ms; poll the outbound buffer drain, which resolves only when
the buffer reaches zero or the 8 s timeout elapses; close the connection with
the normal-closure code 1000; stop the capture tracks; and finally notify the
external collaborator that the stream is finished. -/
theorem c9_shutdown_order (sid : String) (bufferedAmount : Nat → Nat) :
    ScreenRecorder.stopRecording true true (some sid) =
      [ScreenRecorder.StopEvent.recorderStopFlush,
       ScreenRecorder.StopEvent.pause 200,
       ScreenRecorder.StopEvent.drainPoll,
       ScreenRecorder.StopEvent.wsClose 1000 "Stream ended",
       ScreenRecorder.StopEvent.tracksStopped,
       ScreenRecorder.StopEvent.notifyStreamComplete sid]
    ∧ (bufferedAmount
          (ScreenRecorder.waitForBufferDrain bufferedAmount 8000 0) = 0 ∨
        ScreenRecorder.waitForBufferDrain bufferedAmount 8000 0 > 8000) :=
  ⟨rfl, waitForBufferDrain_resolves bufferedAmount 8000 0⟩

/-- Every chunk a live session buffers before finalization is a full
alignment-sized non-final chunk. -/
theorem foldl_addFragment_chunks (fragments : List Nat) :
    ∀ (s : ChunkDriver.ChunkSession),
      ∀ c ∈ (fragments.foldl ChunkDriver.addFragment s).chunks,
        c ∈ s.chunks ∨ c = (ChunkDriver.chunkAlignment, false) := by
  induction fragments with
  | nil =>
      intro s c hc
      exact Or.inl hc
  | cons f rest ih =>
      intro s c hc
      rw [List.foldl_cons] at hc
      rcases ih (ChunkDriver.addFragment s f) c hc with h | h
      · simp only [ChunkDriver.addFragment, List.mem_append] at h
        rcases h with h2 | h2
        · exact Or.inl h2
        · exact Or.inr (List.eq_of_mem_replicate h2)
      · exact Or.inr h

/-- The bytes still buffered after folding a fragment sequence equal the
total byte count modulo the alignment boundary. -/
theorem foldl_addFragment_buffer :
    ∀ (fragments : List Nat) (s : ChunkDriver.ChunkSession),
      s.bufferedBytes < ChunkDriver.chunkAlignment →
      (fragments.foldl ChunkDriver.addFragment s).bufferedBytes =
        (s.bufferedBytes + fragments.sum) % ChunkDriver.chunkAlignment := by
  intro fragments
  induction fragments with
  | nil =>
      intro s hs
      simp [Nat.mod_eq_of_lt hs]
  | cons f rest ih =>
      intro s hs
      rw [List.foldl_cons]
      have h2 := ih (ChunkDriver.addFragment s f)
        (Nat.mod_lt _ (by decide))
      rw [h2]
      simp only [ChunkDriver.addFragment, List.sum_cons]
      rw [Nat.mod_add_mod, Nat.add_assoc]

/-- C3 (spec-modelled): in a live progressive session over any fragment
sequence, the queued chunks are some list of non-final chunks, each of whose
byte lengths is an exact multiple of 262144, followed by the single final
chunk, whose length is the total byte count modulo the boundary and so may be
any value including zero — witnessed concretely by a session whose total is
exactly one boundary, which finalizes with a zero-length final chunk. -/
theorem c3_nonfinal_chunks_aligned (fragments : List Nat) :
    (∃ nonFinal : List (Nat × Bool),
      (ChunkDriver.runLive fragments).chunks =
        nonFinal ++ [(fragments.sum % ChunkDriver.chunkAlignment, true)] ∧
      ∀ c ∈ nonFinal, c.2 = false ∧ c.1 % 262144 = 0)
    ∧ (ChunkDriver.runLive [ChunkDriver.chunkAlignment]).chunks =
        [(ChunkDriver.chunkAlignment, false), (0, true)] := by
  constructor
  · refine ⟨(fragments.foldl ChunkDriver.addFragment
      { bufferedBytes := 0, chunks := [] }).chunks, ?_, ?_⟩
    · have hbuf := foldl_addFragment_buffer fragments
        { bufferedBytes := 0, chunks := [] } (by decide)
      simp only [ChunkDriver.runLive, ChunkDriver.finalizeSession]
      rw [hbuf]
      simp
    · intro c hc
      rcases foldl_addFragment_chunks fragments
        { bufferedBytes := 0, chunks := [] } c hc with h | h
      · simp at h
      · rw [h]
        exact ⟨rfl, by decide⟩
  · decide
